import Mathlib

/-!
Verification of the statistical-equilibrium and superlevel population engine
(source files partition.c, levels.c, superlevel.c).

The embedding is generic over a linear ordered field `k` standing for the C
`double` type, with the C library function `exp` passed in as an explicit
function argument `expFn : k → k`.  Instantiating `k := ℝ, expFn := Real.exp`
gives the intended real-number semantics; instantiating `k := ℚ` with a
concrete `expFn` gives executable semantics used for concrete evaluations.

Global atomic data (the `ion` and `config` tables and the counter `nions`)
is bundled in `Atomic`; per-cell state is `Plasma` (struct plasma) and
`MacroCell` (struct macro, the superlevel fields).  C arrays are embedded as
total functions from ℕ; a C routine that terminates the process via
`Error (...); exit (0)` is embedded as returning `Except.error` carrying the
state at the moment of termination.
-/

namespace PythonSE

/-- One entry of the global `ion` table (only the fields read by the
routines under verification).  `matom_info` embeds the C field
`macro_info`, and `has_superlevel` the flag of the same name. -/
structure IonRec (k : Type) where
  g : k
  nlevels : ℕ
  nlte : ℕ
  firstlevel : ℕ
  first_nlte_level : ℕ
  first_levden : ℕ
  matom_info : ℕ
  has_superlevel : ℕ

/-- One entry of the global `config` (level) table. -/
structure ConfigRec (k : Type) where
  nion : ℕ
  g : k
  ex : k

/-- The read-only atomic-data tables plus the ion counter `nions`. -/
structure Atomic (k : Type) where
  ion : ℕ → IonRec k
  config : ℕ → ConfigRec k
  nions : ℕ

/-- The per-cell plasma state (struct plasma): the scalar fields and the
`partition`, `density` and `levden` arrays used by the routines under
verification.  In the C source `partition` and `density` are pointers while
`levden` is accessed through the same plasma pointer; aliasing introduced by
`copy_plasma` is made explicit at its use site. -/
structure Plasma (k : Type) where
  nwind : ℕ
  nplasma : ℕ
  ne : k
  rho : k
  vol : k
  t_r : k
  t_e : k
  w : k
  partition : ℕ → k
  density : ℕ → k
  levden : ℕ → k

/-- The per-cell superlevel state (the fields of struct macro used by
superlevel.c): `superlevel_lte_pops` is indexed by level,
`superlevel_threshold` and `superlevel_norm` by ion. -/
structure MacroCell (k : Type) where
  superlevel_lte_pops : ℕ → k
  superlevel_threshold : ℕ → ℕ
  superlevel_norm : ℕ → k

variable {k : Type} [LinearOrderedField k]

/-- The mode dispatch at the top of `partition_functions` (partition.c
lines 122-160): maps a mode to the pair (t, weight), or to `none` for an
unknown mode, in which case the C code logs an error and calls `exit (0)`
before touching the cell.  The mode constants are those of maps.h:
NEBULARMODE_TR 0, NEBULARMODE_TE 1, NEBULARMODE_ML93 2,
NEBULARMODE_NLTE_SIM 3, NEBULARMODE_LTE_GROUND 4. -/
def partition_functions_mode_select (mode : ℤ) (xplasma : Plasma k) : Option (k × k) :=
  if mode = 0 then some (xplasma.t_r, 1)
  else if mode = 1 then some (xplasma.t_e, 1)
  else if mode = 2 then some (xplasma.t_r, xplasma.w)
  else if mode = 3 then some (xplasma.t_e, 1)
  else if mode = 4 then some (xplasma.t_e, 0)
  else none

/-- The per-ion partition function computed by the loop body of
`partition_functions` (partition.c lines 165-206): sum over the detailed
(`nlevels`) ladder when present, else over the reduced (`nlte`) ladder,
else fall back to the bare ion weight `ion[nion].g`.  The loop
`for (n = 1; n < N; n++)` is the sum over `Finset.Ico 1 N`. -/
def partition_functions_z (A : Atomic k) (expFn : k → k) (weight kt : k) (nion : ℕ) : k :=
  if 0 < (A.ion nion).nlevels then
    (A.config (A.ion nion).firstlevel).g +
      ∑ n in Finset.Ico 1 (A.ion nion).nlevels,
        weight * (A.config ((A.ion nion).firstlevel + n)).g *
          expFn ((-(A.config ((A.ion nion).firstlevel + n)).ex +
                  (A.config (A.ion nion).firstlevel).ex) / kt)
  else if 0 < (A.ion nion).nlte then
    (A.config (A.ion nion).first_nlte_level).g +
      ∑ n in Finset.Ico 1 (A.ion nion).nlte,
        weight * (A.config ((A.ion nion).first_nlte_level + n)).g *
          expFn ((-(A.config ((A.ion nion).first_nlte_level + n)).ex +
                  (A.config (A.ion nion).first_nlte_level).ex) / kt)
  else (A.ion nion).g

/-- The mode dispatch at the top of `levels` (levels.c lines 73-102);
identical mode table, `exit (0)` on an unknown mode before any write. -/
def levels_mode_select (mode : ℤ) (xplasma : Plasma k) : Option (k × k) :=
  if mode = 0 then some (xplasma.t_r, 1)
  else if mode = 1 then some (xplasma.t_e, 1)
  else if mode = 2 then some (xplasma.t_r, xplasma.w)
  else if mode = 3 then some (xplasma.t_e, 1)
  else if mode = 4 then some (xplasma.t_e, 0)
  else none

/-- Embeds `get_boltzmann_populations` (levels.c lines 147-171) as an array
transformer: writes index `nlevden` with `ground = config[m].g / z` and
indices `nlevden + n` (for `1 ≤ n < nlte`) with
`ground * w * config[m+n].g * exp((-ex[m+n] + ex[m]) / kt) / z`,
leaving every other index unchanged.  `B` is the BOLTZMANN constant. -/
def get_boltzmann_populations (A : Atomic k) (B : k) (expFn : k → k)
    (levden_array : ℕ → k) (nion : ℕ) (w t z : k) (nlevden : ℕ) : ℕ → k :=
  fun i =>
    if i = nlevden then (A.config (A.ion nion).first_nlte_level).g / z
    else if nlevden < i ∧ i < nlevden + (A.ion nion).nlte then
      ((A.config (A.ion nion).first_nlte_level).g / z) * w *
        (A.config ((A.ion nion).first_nlte_level + (i - nlevden))).g *
        expFn ((-(A.config ((A.ion nion).first_nlte_level + (i - nlevden))).ex +
                (A.config (A.ion nion).first_nlte_level).ex) / (B * t)) / z
    else levden_array i

/-- One iteration of the ion loop of `levels` (levels.c lines 111-129):
ions with `nlte > 0` that pass the macro-atom guard
(`macro_info == 0 || geo.macro_ioniz_mode == 0`) get their levden range
written by `get_boltzmann_populations`; other ions leave the array alone. -/
def levels_step (A : Atomic k) (B : k) (expFn : k → k) (matom_ioniz_mode : ℕ)
    (weight t : k) (part : ℕ → k) (arr : ℕ → k) (nion : ℕ) : ℕ → k :=
  if 0 < (A.ion nion).nlte ∧ ((A.ion nion).matom_info = 0 ∨ matom_ioniz_mode = 0) then
    get_boltzmann_populations A B expFn arr nion weight t (part nion)
      (A.ion nion).first_levden
  else arr

/-- Embeds `levels` (levels.c lines 60-133).  `Except.error x` embeds
`Error (...); exit (0)` with the cell untouched; `Except.ok` carries the
updated cell.  The ion loop is a left fold because the C loop writes the
levden array sequentially. -/
def levels (A : Atomic k) (B : k) (expFn : k → k) (matom_ioniz_mode : ℕ)
    (mode : ℤ) (xplasma : Plasma k) : Except (Plasma k) (Plasma k) :=
  match levels_mode_select mode xplasma with
  | none => .error xplasma
  | some (t, weight) =>
      .ok { xplasma with
            levden := (List.range A.nions).foldl
              (levels_step A B expFn matom_ioniz_mode weight t xplasma.partition)
              xplasma.levden }

/-- Embeds `partition_functions` (partition.c lines 108-211): mode dispatch, the
per-ion partition loop, then the call `levels (xplasma, mode)` on the
updated cell.  An unknown mode terminates before any write. -/
def partition_functions (A : Atomic k) (B : k) (expFn : k → k)
    (matom_ioniz_mode : ℕ) (mode : ℤ) (xplasma : Plasma k) :
    Except (Plasma k) (Plasma k) :=
  match partition_functions_mode_select mode xplasma with
  | none => .error xplasma
  | some (t, weight) =>
      levels A B expFn matom_ioniz_mode mode
        { xplasma with
          partition := fun nion =>
            if nion < A.nions then partition_functions_z A expFn weight (B * t) nion
            else xplasma.partition nion }

/-- The state a routine embedded as `Except` leaves behind, whether it
returned normally or terminated the process. -/
def exceptState (e : Except (Plasma k) (Plasma k)) : Plasma k :=
  match e with
  | .ok y => y
  | .error y => y

/-- The per-ion partition sum of `partition_functions_2` (partition.c lines
316-357); the loop body is a verbatim repeat of the one in
`partition_functions`, translated here separately from its own source. -/
def partition_functions_2_z (A : Atomic k) (expFn : k → k) (weight kt : k) (nion : ℕ) : k :=
  if 0 < (A.ion nion).nlevels then
    (A.config (A.ion nion).firstlevel).g +
      ∑ n in Finset.Ico 1 (A.ion nion).nlevels,
        weight * (A.config ((A.ion nion).firstlevel + n)).g *
          expFn ((-(A.config ((A.ion nion).firstlevel + n)).ex +
                  (A.config (A.ion nion).firstlevel).ex) / kt)
  else if 0 < (A.ion nion).nlte then
    (A.config (A.ion nion).first_nlte_level).g +
      ∑ n in Finset.Ico 1 (A.ion nion).nlte,
        weight * (A.config ((A.ion nion).first_nlte_level + n)).g *
          expFn ((-(A.config ((A.ion nion).first_nlte_level + n)).ex +
                  (A.config (A.ion nion).first_nlte_level).ex) / kt)
  else (A.ion nion).g

/-- Embeds `partition_functions_2` (partition.c lines 298-360): writes the
partition entries of ions `xnion - 1` and `xnion` only, at the
caller-supplied temperature and weight (`kt = BOLTZMANN * temp`). -/
def partition_functions_2 (A : Atomic k) (B : k) (expFn : k → k)
    (xnion : ℕ) (temp weight : k) (xplasma : Plasma k) : Plasma k :=
  { xplasma with
    partition := fun nion =>
      if nion = xnion - 1 ∨ nion = xnion then
        partition_functions_2_z A expFn weight (B * temp) nion
      else xplasma.partition nion }

/-- C10.  For every mode outside {0,1,2,3,4} both `partition_functions` and
`levels` log an error and terminate with the cell untouched (the `.error`
value carries the cell exactly as it was passed in, partition and levden
arrays included); for every mode in {0,1,2,3,4} neither routine
terminates. -/
theorem unknown_mode_fatal (A : Atomic k) (B : k) (expFn : k → k)
    (matom_ioniz_mode : ℕ) (mode : ℤ) (xplasma : Plasma k) :
    if mode = 0 ∨ mode = 1 ∨ mode = 2 ∨ mode = 3 ∨ mode = 4 then
      (∃ y, partition_functions A B expFn matom_ioniz_mode mode xplasma = .ok y) ∧
      (∃ y, levels A B expFn matom_ioniz_mode mode xplasma = .ok y)
    else
      partition_functions A B expFn matom_ioniz_mode mode xplasma = .error xplasma ∧
      levels A B expFn matom_ioniz_mode mode xplasma = .error xplasma := by
  split
  · rename_i h
    rcases h with h | h | h | h | h <;> subst h <;>
      exact ⟨⟨_, rfl⟩, ⟨_, rfl⟩⟩
  · rename_i h
    push_neg at h
    obtain ⟨h0, h1, h2, h3, h4⟩ := h
    constructor
    · show (match partition_functions_mode_select mode xplasma with
        | none => Except.error xplasma
        | some (t, weight) => _) = Except.error xplasma
      rw [partition_functions_mode_select, if_neg h0, if_neg h1, if_neg h2,
        if_neg h3, if_neg h4]
    · show (match levels_mode_select mode xplasma with
        | none => Except.error xplasma
        | some (t, weight) => _) = Except.error xplasma
      rw [levels_mode_select, if_neg h0, if_neg h1, if_neg h2, if_neg h3, if_neg h4]

/-- The while loop of `get_superlevel_threshold` (superlevel.c lines
208-214).  Arguments after the fixed data are the loop state: the running
`threshold`, the offset `n`, and the current departure coefficient
`dep`.  The loop guard is, in source order,
`dep_coef < LTE_DEP_FRAC && dep_coef > (1./LTE_DEP_FRAC) &&
 (threshold - ground) > LOWEST_SUPERLEVEL_THRESHOLD`
with `LTE_DEP_FRAC = 2`, and each iteration decrements `threshold`,
increments `n` and recomputes `dep_coef` from `superlevel_lte_pops` and the
previous cycle's `levden`.  `L` embeds the configured constant
`LOWEST_SUPERLEVEL_THRESHOLD` (defined in a header outside src/, so kept as
a parameter).  The loop decrements `threshold` at least once per iteration
and the guard forces `threshold > ground`, so `fuel := threshold + 1`
supplied at the call site is never exhausted; the fuel argument only makes
the recursion structural. -/
def gst_loop (pops xlevden : ℕ → k) (ground_den : k) (L ground lastden : ℕ) :
    ℕ → ℕ → ℕ → k → ℕ
  | 0, threshold, _, _ => threshold
  | fuel + 1, threshold, n, dep =>
      if dep < 2 ∧ 1 / 2 < dep ∧ L < threshold - ground then
        gst_loop pops xlevden ground_den L ground lastden fuel (threshold - 1) (n + 1)
          (pops (threshold - 1) / (xlevden (lastden - (n + 1)) / ground_den))
      else threshold

/-- Embeds `get_superlevel_threshold` (superlevel.c lines 181-222).  `wcycle`
embeds `geo.wcycle`: on the first cycle the topmost reduced level is
returned at once; otherwise the loop walks down from the top while the
departure coefficient stays strictly inside (1/2, 2) and the floor has not
been reached, and the final `threshold++` is the `+ 1`. -/
def get_superlevel_threshold (A : Atomic k) (mplasma : MacroCell k)
    (xplasma : Plasma k) (L wcycle nion : ℕ) : ℕ :=
  let ground := (A.ion nion).first_nlte_level
  let lastden := (A.ion nion).first_levden + (A.ion nion).nlte - 1
  let threshold := (A.ion nion).nlte + ground - 1
  if wcycle = 0 then threshold
  else
    let ground_den := xplasma.levden (A.ion nion).first_levden
    gst_loop mplasma.superlevel_lte_pops xplasma.levden ground_den L ground lastden
      (threshold + 1) threshold 0
      (mplasma.superlevel_lte_pops threshold / (xplasma.levden lastden / ground_den)) + 1

/-- The cumulative-sum walk of `choose_superlevel_deactivation`
(superlevel.c lines 48-60): starting from the stored threshold, accumulate
`superlevel_lte_pops[n] / config[n].g` while `run_tot < threshold_target`
and `n < ground + nlte`, incrementing `n`.  Returns the final `n` and
`run_tot`.  Each iteration increments `n`, so `fuel := limit + 1 - n`
supplied at the call site is never exhausted. -/
def csd_loop (pops gconf : ℕ → k) (limit : ℕ) (target : k) :
    ℕ → k → ℕ → ℕ × k
  | 0, run_tot, n => (n, run_tot)
  | fuel + 1, run_tot, n =>
      if run_tot < target ∧ n < limit then
        csd_loop pops gconf limit target fuel (run_tot + pops n / gconf n) (n + 1)
      else (n, run_tot)

/-- Embeds `choose_superlevel_deactivation` (superlevel.c lines 35-77) with its
two defensive error branches made visible: the result is the returned level
together with the flags of the two `Error` calls
(`n == ground + ion[nion].nlte + 1` and `n < superlevel_threshold[nion]`).
`z` embeds the uniform draw `(rand () + 0.5) / MAXRAND`. -/
def choose_superlevel_deactivation_full (A : Atomic k) (mplasma : MacroCell k)
    (z : k) (uplvl : ℕ) : ℕ × Bool × Bool :=
  let nion := (A.config uplvl).nion
  let target := z * mplasma.superlevel_norm nion
  let ground := (A.ion nion).first_nlte_level
  let limit := ground + (A.ion nion).nlte
  let n0 := mplasma.superlevel_threshold nion
  let walk := csd_loop mplasma.superlevel_lte_pops (fun i => (A.config i).g) limit target
    (limit + 1 - n0) 0 n0
  let n1 := if n0 < walk.1 then walk.1 - 1 else walk.1
  (n1, decide (n1 = ground + (A.ion nion).nlte + 1), decide (n1 < n0))

/-- The level returned by `choose_superlevel_deactivation`. -/
def choose_superlevel_deactivation (A : Atomic k) (mplasma : MacroCell k)
    (z : k) (uplvl : ℕ) : ℕ :=
  (choose_superlevel_deactivation_full A mplasma z uplvl).1

/-- The body of the per-cell, per-ion work of `setup_superlevels`
(superlevel.c lines 116-143): write the LTE population ratios relative to
ground into `superlevel_lte_pops`, store the threshold, then ADD the sum
`Σ_{n=threshold}^{ground+nlte-1} superlevel_lte_pops[n] / config[n].g` onto
`superlevel_norm[nion]` (the source uses `+=` with no prior reset). -/
def setup_superlevels_cell (A : Atomic k) (B : k) (expFn : k → k)
    (L wcycle : ℕ) (xplasma : Plasma k) (mplasma : MacroCell k) (nion : ℕ) :
    MacroCell k :=
  let kt := B * xplasma.t_e
  let ground := (A.ion nion).first_nlte_level
  let pops : ℕ → k := fun n =>
    if n = ground then 1
    else if ground < n ∧ n < ground + (A.ion nion).nlte then
      ((A.config n).g / (A.config ground).g) *
        expFn ((-(A.config n).ex + (A.config ground).ex) / kt)
    else mplasma.superlevel_lte_pops n
  let m1 : MacroCell k := { mplasma with superlevel_lte_pops := pops }
  let thr := get_superlevel_threshold A m1 xplasma L wcycle nion
  let m2 : MacroCell k :=
    { m1 with superlevel_threshold := Function.update m1.superlevel_threshold nion thr }
  { m2 with
    superlevel_norm := fun i =>
      if i = nion then
        m2.superlevel_norm nion +
          ∑ n in Finset.Ico thr (ground + (A.ion nion).nlte), pops n / (A.config n).g
      else m2.superlevel_norm i }

/-- Embeds `setup_superlevels` (superlevel.c lines 102-151): for every ion of the
table (the source iterates `nion < NIONS`, the table capacity, embedded as
`nions_total`) with `has_superlevel == 1`, and every cell
(`nplasma < NPLASMA`), run the per-cell body on that cell's plasma and
macro state. -/
def setup_superlevels (A : Atomic k) (B : k) (expFn : k → k)
    (L wcycle nions_total nplasma_total : ℕ) (plasmamain : ℕ → Plasma k)
    (macromain : ℕ → MacroCell k) : ℕ → MacroCell k :=
  (List.range nions_total).foldl
    (fun mm nion =>
      if (A.ion nion).has_superlevel = 1 then
        (List.range nplasma_total).foldl
          (fun mm2 np =>
            Function.update mm2 np
              (setup_superlevels_cell A B expFn L wcycle (plasmamain np) (mm2 np) nion))
          mm
      else mm)
    macromain

/-- The threshold walk never ends below `ground + L` unless it never moved:
the result of `gst_loop` is either its starting threshold or at least
`ground + L`, because the guard `L < threshold - ground` is re-checked
before every decrement. -/
theorem gst_loop_lower_bound (pops xlevden : ℕ → k) (gd : k) (L ground lastden : ℕ) :
    ∀ fuel thr n dep, gst_loop pops xlevden gd L ground lastden fuel thr n dep = thr ∨
      ground + L ≤ gst_loop pops xlevden gd L ground lastden fuel thr n dep := by
  intro fuel
  induction fuel with
  | zero => intro thr n dep; exact Or.inl rfl
  | succ f ih =>
      intro thr n dep
      rw [gst_loop]
      split
      · rename_i hguard
        rcases ih (thr - 1) (n + 1)
            (pops (thr - 1) / (xlevden (lastden - (n + 1)) / gd)) with h | h
        · right; rw [h]; omega
        · right; exact h
      · exact Or.inl rfl

/-- C9.  On the very first iteration (`geo.wcycle == 0`),
`get_superlevel_threshold` returns exactly the ion's topmost reduced level
`first_nlte_level + nlte - 1`, for every cell and ion. -/
theorem first_cycle_threshold_topmost (A : Atomic k) (mplasma : MacroCell k)
    (xplasma : Plasma k) (L nion wcycle : ℕ) (hw : wcycle = 0) :
    get_superlevel_threshold A mplasma xplasma L wcycle nion =
      (A.ion nion).first_nlte_level + (A.ion nion).nlte - 1 := by
  subst hw
  simp [get_superlevel_threshold]
  omega

/-- C5.  The threshold returned by `get_superlevel_threshold` never lets
the aggregated block reach below the configured floor `L`
(LOWEST_SUPERLEVEL_THRESHOLD) measured from the ion's topmost level: the
number of aggregated levels, topmost index minus threshold plus one, is at
most the ladder size `nlte` minus `L`, whenever the ladder is larger than
the floor. -/
theorem superlevel_threshold_floor (A : Atomic k) (mplasma : MacroCell k)
    (xplasma : Plasma k) (L wcycle nion : ℕ)
    (hfloor : L + 1 ≤ (A.ion nion).nlte) :
    (((A.ion nion).first_nlte_level + (A.ion nion).nlte - 1 : ℕ) : ℤ)
        - (get_superlevel_threshold A mplasma xplasma L wcycle nion : ℤ) + 1
      ≤ ((A.ion nion).nlte : ℤ) - (L : ℤ) := by
  simp only [get_superlevel_threshold]
  by_cases hw : wcycle = 0
  · rw [if_pos hw]; omega
  · rw [if_neg hw]
    rcases gst_loop_lower_bound mplasma.superlevel_lte_pops xplasma.levden
        (xplasma.levden (A.ion nion).first_levden) L (A.ion nion).first_nlte_level
        ((A.ion nion).first_levden + (A.ion nion).nlte - 1)
        ((A.ion nion).nlte + (A.ion nion).first_nlte_level - 1 + 1)
        ((A.ion nion).nlte + (A.ion nion).first_nlte_level - 1) 0
        (mplasma.superlevel_lte_pops ((A.ion nion).nlte + (A.ion nion).first_nlte_level - 1) /
          (xplasma.levden ((A.ion nion).first_levden + (A.ion nion).nlte - 1) /
            xplasma.levden (A.ion nion).first_levden)) with h | h <;> omega

/-- A concrete witness configuration over ℚ: a single ion with a
four-level reduced ladder starting at level 0. -/
def wAtomic : Atomic ℚ :=
  { ion := fun _ =>
      { g := 1, nlevels := 0, nlte := 4, firstlevel := 0, first_nlte_level := 0,
        first_levden := 0, matom_info := 0, has_superlevel := 1 },
    config := fun _ => { nion := 0, g := 1, ex := 0 },
    nions := 1 }

/-- A concrete plasma cell over ℚ with unit level densities. -/
def wPlasma : Plasma ℚ :=
  { nwind := 0, nplasma := 0, ne := 1, rho := 1, vol := 1, t_r := 1, t_e := 1, w := 1,
    partition := fun _ => 1, density := fun _ => 1, levden := fun _ => 1 }

/-- A concrete macro cell over ℚ with unit superlevel data. -/
def wMacro : MacroCell ℚ :=
  { superlevel_lte_pops := fun _ => 1, superlevel_threshold := fun _ => 3,
    superlevel_norm := fun _ => 1 }

/-- Witness for C9: on the concrete single-ion configuration with
`wcycle = 0` the threshold is level 3, the topmost of the 4-level ladder. -/
theorem first_cycle_threshold_topmost_witness :
    get_superlevel_threshold wAtomic wMacro wPlasma 0 0 0 = 3 := by
  simpa using first_cycle_threshold_topmost wAtomic wMacro wPlasma 0 0 0 rfl

/-- Witness for C5: on the concrete configuration with floor `L = 2` and
`wcycle = 1`, the aggregated-level count is within `nlte - L = 2`. -/
theorem superlevel_threshold_floor_witness :
    ((0 + 4 - 1 : ℕ) : ℤ) - (get_superlevel_threshold wAtomic wMacro wPlasma 2 1 0 : ℤ) + 1
      ≤ (4 : ℤ) - (2 : ℤ) := by
  simpa using superlevel_threshold_floor wAtomic wMacro wPlasma 2 1 0 (by decide)

/-- C4.  On a non-first iteration, if already the topmost level's departure
coefficient lies outside the strict band (1/2, 2), `get_superlevel_threshold`
returns `first_nlte_level + nlte`, one past the ion's topmost reduced
level; and `choose_superlevel_deactivation` invoked on a macro cell that
stores that threshold returns this out-of-ladder index with both of its
defensive error branches untaken. -/
theorem threshold_out_of_ladder_no_error (A : Atomic k) (mplasma m2 : MacroCell k)
    (xplasma : Plasma k) (L wcycle nion uplvl : ℕ) (z : k)
    (hw : wcycle ≠ 0) (hn : 1 ≤ (A.ion nion).nlte)
    (hdep : ¬ (1 / 2 <
        mplasma.superlevel_lte_pops ((A.ion nion).nlte + (A.ion nion).first_nlte_level - 1) /
          (xplasma.levden ((A.ion nion).first_levden + (A.ion nion).nlte - 1) /
            xplasma.levden (A.ion nion).first_levden) ∧
        mplasma.superlevel_lte_pops ((A.ion nion).nlte + (A.ion nion).first_nlte_level - 1) /
          (xplasma.levden ((A.ion nion).first_levden + (A.ion nion).nlte - 1) /
            xplasma.levden (A.ion nion).first_levden) < 2))
    (hu : (A.config uplvl).nion = nion)
    (hm2 : m2.superlevel_threshold nion =
      (A.ion nion).first_nlte_level + (A.ion nion).nlte) :
    get_superlevel_threshold A mplasma xplasma L wcycle nion =
      (A.ion nion).first_nlte_level + (A.ion nion).nlte ∧
    choose_superlevel_deactivation_full A m2 z uplvl =
      ((A.ion nion).first_nlte_level + (A.ion nion).nlte, false, false) := by
  constructor
  · simp only [get_superlevel_threshold, if_neg hw]
    rw [gst_loop]
    rw [if_neg (by tauto)]
    omega
  · simp only [choose_superlevel_deactivation_full, hu, hm2]
    rw [show (A.ion nion).first_nlte_level + (A.ion nion).nlte + 1 -
        ((A.ion nion).first_nlte_level + (A.ion nion).nlte) = 0 + 1 from by omega]
    rw [csd_loop]
    rw [if_neg (by simp)]
    simp

/-- Witness data for C4: the stored lte population of the top level is 4
while the previous-cycle densities are flat, so the departure coefficient
at the top is 4, outside (1/2, 2). -/
def c4Macro : MacroCell ℚ :=
  { superlevel_lte_pops := fun _ => 4, superlevel_threshold := fun _ => 3,
    superlevel_norm := fun _ => 1 }

/-- Witness data for C4: a macro cell storing the out-of-ladder threshold
`first_nlte_level + nlte = 4` for ion 0. -/
def c4MacroStored : MacroCell ℚ :=
  { superlevel_lte_pops := fun _ => 4, superlevel_threshold := fun _ => 4,
    superlevel_norm := fun _ => 1 }

/-- Witness for C4: on the concrete configuration the threshold comes out
one past the 4-level ladder and sampling returns it with no error branch
taken. -/
theorem threshold_out_of_ladder_no_error_witness :
    get_superlevel_threshold wAtomic c4Macro wPlasma 0 1 0 = 4 ∧
    choose_superlevel_deactivation_full wAtomic c4MacroStored (1 / 2) 0 =
      (4, false, false) := by
  simpa using threshold_out_of_ladder_no_error wAtomic c4Macro c4MacroStored wPlasma
    0 1 0 0 (1 / 2) (by decide) (by decide)
    (by norm_num [c4Macro, wAtomic, wPlasma]) rfl rfl

/-- The superlevel ladder of the spec's concrete sampling scenario:
4 levels above the threshold (stored threshold 0) with
`lte_pop/g = [1/2, 3/10, 3/20, 1/20]`, normalization 1, all `config.g = 1`
(so `lte_pop/g = lte_pop`). -/
def c3Macro : MacroCell ℚ :=
  { superlevel_lte_pops := fun n =>
      if n = 0 then 1 / 2
      else if n = 1 then 3 / 10
      else if n = 2 then 3 / 20
      else if n = 3 then 1 / 20
      else 0,
    superlevel_threshold := fun _ => 0,
    superlevel_norm := fun _ => 1 }

/-- C3, counterexample.  On the spec's concrete ladder, the uniform draw
0.82 does NOT select the level at zero-based offset 3 from the threshold:
the walk stops after accumulating 0.95 at n = 3 and the final decrement
returns level 2. -/
theorem choose_superlevel_scenario_not_fourth :
    choose_superlevel_deactivation wAtomic c3Macro (41 / 50) 0 ≠ 3 := by
  norm_num [choose_superlevel_deactivation, choose_superlevel_deactivation_full,
    csd_loop, wAtomic, c3Macro]

/-- C3, amended.  On the spec's concrete ladder, the uniform draw 0.82
selects the 3rd aggregated level, i.e. zero-based offset 2 from the
threshold: the cumulative sums are 0.5, 0.8, 0.95, 1.0 and 0.82 lies in
the third level's span (0.8, 0.95]. -/
theorem choose_superlevel_scenario_third :
    choose_superlevel_deactivation wAtomic c3Macro (41 / 50) 0 = 2 := by
  norm_num [choose_superlevel_deactivation, choose_superlevel_deactivation_full,
    csd_loop, wAtomic, c3Macro]

/-- Concrete data for exercising `setup_superlevels` twice: one
superlevel-bearing ion with a two-level reduced ladder, unit statistical
weights and zero excitation energies. -/
def c1Atomic : Atomic ℚ :=
  { ion := fun _ =>
      { g := 1, nlevels := 0, nlte := 2, firstlevel := 0, first_nlte_level := 0,
        first_levden := 0, matom_info := 0, has_superlevel := 1 },
    config := fun _ => { nion := 0, g := 1, ex := 0 },
    nions := 1 }

/-- The macro cell before the first rebuild: all superlevel fields zero. -/
def c1Macro0 : MacroCell ℚ :=
  { superlevel_lte_pops := fun _ => 0, superlevel_threshold := fun _ => 0,
    superlevel_norm := fun _ => 0 }

/-- The macro state after the first `setup_superlevels` (iteration 0). -/
def c1_first : ℕ → MacroCell ℚ :=
  setup_superlevels c1Atomic 1 (fun _ => 1) 0 0 1 1 (fun _ => wPlasma) (fun _ => c1Macro0)

/-- The macro state after a second `setup_superlevels` on the next
iteration (`wcycle = 1`), starting from the first rebuild's state. -/
def c1_second : ℕ → MacroCell ℚ :=
  setup_superlevels c1Atomic 1 (fun _ => 1) 0 1 1 1 (fun _ => wPlasma) c1_first

/-- C1, evaluation at the failing input.  On this configuration the sum
`Σ_{n=threshold}^{top} lte_pop[n]/g_n` equals 1 on both rebuilds, but since
`setup_superlevels` accumulates with `+=` and never resets
`superlevel_norm`, the second rebuild leaves 2, not the sum 1: the
normalization is not an assignment and keeps the previous iteration's
contribution. -/
theorem setup_superlevels_norm_accumulates :
    (c1_first 0).superlevel_norm 0 = 1 ∧
    (c1_second 0).superlevel_norm 0 = 2 ∧
    (c1_second 0).superlevel_norm 0 ≠ 1 := by
  norm_num [c1_first, c1_second, setup_superlevels, setup_superlevels_cell,
    get_superlevel_threshold, gst_loop, c1Atomic, c1Macro0, wPlasma,
    List.range_succ, Function.update, Finset.sum_Ico_succ_top, Finset.Ico_self]

/-- One entry of the element table `ele` (the fields read by
`get_lte_matom_populations`). -/
structure ElemRec (k : Type) where
  firstion : ℕ
  nions : ℕ
  abun : k

/-- Embeds `copy_plasma` (levels.c lines 241-262): copies the scalar fields and
assigns the `partition` and `density` POINTERS of `x1` into `x2`
(`x2->partition = x1->partition`), so after the call the copy references
the very arrays of the original; `levden` and all remaining fields keep
whatever was in `x2`. -/
def copy_plasma (x1 x2 : Plasma k) : Plasma k :=
  { x2 with
    nwind := x1.nwind
    nplasma := x1.nplasma
    ne := x1.ne
    rho := x1.rho
    vol := x1.vol
    t_r := x1.t_r
    t_e := x1.t_e
    w := x1.w
    partition := x1.partition
    density := x1.density }

/-- The loop body of `get_lte_matom_populations` (levels.c lines 196-214),
acting on the pair (caller-supplied output array, scratch plasma): read the
ion fraction and partition function from the scratch state, write the
Boltzmann populations into the scratch state's levden, and scale the
output array's entries of this ion's levden range by the ion fraction. -/
def glmp_step (A : Atomic k) (B : k) (expFn : k → k) (nh : k) (ele : ElemRec k) :
    ((ℕ → k) × Plasma k) → ℕ → ((ℕ → k) × Plasma k) :=
  fun p i =>
    let nion := ele.firstion + i
    let nlevden_first := (A.ion nion).first_levden
    let ion_fraction := p.2.density nion / (nh * ele.abun)
    let z := p.2.partition nion
    (fun n =>
        if nlevden_first ≤ n ∧ n < nlevden_first + (A.ion nion).nlte then
          p.1 n * ion_fraction
        else p.1 n,
      { p.2 with levden :=
          get_boltzmann_populations A B expFn p.2.levden nion 1 p.2.t_r z nlevden_first })

/-- Modelled from the spec: the call `saha (xdummy_lte, xdummy_lte->ne,
xdummy_lte->t_r)` in `get_lte_matom_populations` invokes the
ionization-balance solver, which is not part of src/; per the spec it
recomputes the ionization fractions at `t_r` under LTE assumptions
(an external collaborator), embedded here as replacing the scratch
state's (shared) density array by the caller-supplied
`sahaFn state ne t_r`.  This definition is the first part of
`get_lte_matom_populations` (levels.c lines 184-194): build the shallow
scratch copy, run `partition_functions` at NEBULARMODE_TR on it, then the
Saha step. -/
def glmp_scratch (A : Atomic k) (B : k) (expFn : k → k) (matom_ioniz_mode : ℕ)
    (sahaFn : Plasma k → k → k → (ℕ → k)) (pdum0 xplasma : Plasma k) : Plasma k :=
  let xdummy1 := exceptState
    (partition_functions A B expFn matom_ioniz_mode 0 (copy_plasma xplasma pdum0))
  { xdummy1 with density := sahaFn xdummy1 xdummy1.ne xdummy1.t_r }

/-- Embeds `get_lte_matom_populations` (levels.c lines 174-216): the scratch
phase (`glmp_scratch`), then the element loop (`glmp_step`).  `rho2nh` is
the global constant of that name and `pdum0` the uninitialized local
`plasma_dummy pdum`.  Result: (output array after the call, final scratch
state, the caller's cell as visible after the call).  Because
`copy_plasma` aliases `partition` and `density`, the caller's visible
cell carries the scratch state's final `partition` and `density` arrays,
while its scalar fields and its own `levden` stay untouched. -/
def get_lte_matom_populations (A : Atomic k) (B : k) (expFn : k → k)
    (matom_ioniz_mode : ℕ) (rho2nh : k) (sahaFn : Plasma k → k → k → (ℕ → k))
    (ele : ElemRec k) (levden_array0 : ℕ → k) (pdum0 xplasma : Plasma k) :
    (ℕ → k) × Plasma k × Plasma k :=
  let nh := xplasma.rho * rho2nh
  let r := (List.range ele.nions).foldl (glmp_step A B expFn nh ele)
    (levden_array0, glmp_scratch A B expFn matom_ioniz_mode sahaFn pdum0 xplasma)
  (r.1, r.2, { xplasma with partition := r.2.partition, density := r.2.density })

/-- The element loop never touches the scratch state's partition or density
arrays (it only rewrites its levden). -/
theorem glmp_foldl_arrays (A : Atomic k) (B : k) (expFn : k → k) (nh : k)
    (ele : ElemRec k) :
    ∀ (l : List ℕ) (p : (ℕ → k) × Plasma k),
      (l.foldl (glmp_step A B expFn nh ele) p).2.partition = p.2.partition ∧
      (l.foldl (glmp_step A B expFn nh ele) p).2.density = p.2.density := by
  intro l
  induction l with
  | nil => intro p; exact ⟨rfl, rfl⟩
  | cons a t ih =>
      intro p
      have h := ih (glmp_step A B expFn nh ele p a)
      exact ⟨h.1.trans rfl, h.2.trans rfl⟩

/-- Running `partition_functions` at mode NEBULARMODE_TR leaves behind the LTE
partition functions at `t_r` with weight 1 (and touches no other
partition entry). -/
theorem partition_functions_tr_partition (A : Atomic k) (B : k) (expFn : k → k)
    (matom_ioniz_mode : ℕ) (y : Plasma k) :
    (exceptState (partition_functions A B expFn matom_ioniz_mode 0 y)).partition =
      fun nion => if nion < A.nions then partition_functions_z A expFn 1 (B * y.t_r) nion
        else y.partition nion := rfl

/-- C2, amended.  `get_lte_matom_populations` leaves the caller's scalar
fields (t_e, t_r, w, ne, rho) and the caller's levden array exactly as
they were, but — because `copy_plasma` shares the `partition` and
`density` array references with the scratch copy — it overwrites the
caller's partition array with the LTE partition functions at `t_r`
(weight 1) and the caller's density array with the Saha solver's output;
only those two shared arrays and the caller-supplied output array are
written. -/
theorem get_lte_matom_populations_frame (A : Atomic k) (B : k) (expFn : k → k)
    (matom_ioniz_mode : ℕ) (rho2nh : k) (sahaFn : Plasma k → k → k → (ℕ → k))
    (ele : ElemRec k) (levden_array0 : ℕ → k) (pdum0 xplasma : Plasma k) :
    (get_lte_matom_populations A B expFn matom_ioniz_mode rho2nh sahaFn ele
        levden_array0 pdum0 xplasma).2.2.t_e = xplasma.t_e ∧
    (get_lte_matom_populations A B expFn matom_ioniz_mode rho2nh sahaFn ele
        levden_array0 pdum0 xplasma).2.2.t_r = xplasma.t_r ∧
    (get_lte_matom_populations A B expFn matom_ioniz_mode rho2nh sahaFn ele
        levden_array0 pdum0 xplasma).2.2.w = xplasma.w ∧
    (get_lte_matom_populations A B expFn matom_ioniz_mode rho2nh sahaFn ele
        levden_array0 pdum0 xplasma).2.2.ne = xplasma.ne ∧
    (get_lte_matom_populations A B expFn matom_ioniz_mode rho2nh sahaFn ele
        levden_array0 pdum0 xplasma).2.2.rho = xplasma.rho ∧
    (get_lte_matom_populations A B expFn matom_ioniz_mode rho2nh sahaFn ele
        levden_array0 pdum0 xplasma).2.2.levden = xplasma.levden ∧
    (get_lte_matom_populations A B expFn matom_ioniz_mode rho2nh sahaFn ele
        levden_array0 pdum0 xplasma).2.2.partition =
      (fun nion =>
        if nion < A.nions then partition_functions_z A expFn 1 (B * xplasma.t_r) nion
        else xplasma.partition nion) ∧
    (get_lte_matom_populations A B expFn matom_ioniz_mode rho2nh sahaFn ele
        levden_array0 pdum0 xplasma).2.2.density =
      sahaFn
        (exceptState (partition_functions A B expFn matom_ioniz_mode 0
          (copy_plasma xplasma pdum0))) xplasma.ne xplasma.t_r := by
  have h := glmp_foldl_arrays A B expFn (xplasma.rho * rho2nh) ele
    (List.range ele.nions)
    (levden_array0, glmp_scratch A B expFn matom_ioniz_mode sahaFn pdum0 xplasma)
  refine ⟨rfl, rfl, rfl, rfl, rfl, rfl, ?_, ?_⟩
  · show ((List.range ele.nions).foldl
        (glmp_step A B expFn (xplasma.rho * rho2nh) ele)
        (levden_array0,
          glmp_scratch A B expFn matom_ioniz_mode sahaFn pdum0 xplasma)).2.partition = _
    rw [h.1]
    rfl
  · show ((List.range ele.nions).foldl
        (glmp_step A B expFn (xplasma.rho * rho2nh) ele)
        (levden_array0,
          glmp_scratch A B expFn matom_ioniz_mode sahaFn pdum0 xplasma)).2.density = _
    rw [h.2]
    rfl

/-- Concrete data showing the partition-array mutation: one ion with no
levels at all, bare ion weight 7, while the caller's partition entry holds
5 before the call. -/
def c2Atomic : Atomic ℚ :=
  { ion := fun _ =>
      { g := 7, nlevels := 0, nlte := 0, firstlevel := 0, first_nlte_level := 0,
        first_levden := 0, matom_info := 0, has_superlevel := 0 },
    config := fun _ => { nion := 0, g := 1, ex := 0 },
    nions := 1 }

/-- An element record with no ions, so the element loop is empty. -/
def c2Elem : ElemRec ℚ := { firstion := 0, nions := 0, abun := 1 }

/-- The caller's cell before the call: partition entry 5. -/
def c2Plasma : Plasma ℚ :=
  { nwind := 0, nplasma := 0, ne := 1, rho := 1, vol := 1, t_r := 1, t_e := 1, w := 1,
    partition := fun _ => 5, density := fun _ => 1, levden := fun _ => 1 }

/-- C2, counterexample.  After `get_lte_matom_populations` the caller's
visible partition entry for ion 0 is 7 (the freshly computed LTE value,
written through the shared pointer), no longer the 5 it held before the
call: the caller's live cell state is mutated. -/
theorem get_lte_matom_populations_mutates_partition :
    (get_lte_matom_populations c2Atomic 1 (fun _ => 1) 0 1 (fun _ _ _ => fun _ => 0)
        c2Elem (fun _ => 0) wPlasma c2Plasma).2.2.partition 0 ≠ c2Plasma.partition 0 := by
  norm_num [get_lte_matom_populations, glmp_scratch, glmp_step, copy_plasma,
    exceptState, partition_functions, levels, partition_functions_mode_select,
    levels_mode_select, partition_functions_z, c2Atomic, c2Plasma, c2Elem]

/-- A step of the `levels` ion loop leaves index `i` unchanged when the
ion is skipped or writes only outside `i`. -/
theorem levels_step_untouched (A : Atomic k) (B : k) (expFn : k → k)
    (mi : ℕ) (weight t : k) (part arr : ℕ → k) (j i : ℕ)
    (h : (0 < (A.ion j).nlte ∧ ((A.ion j).matom_info = 0 ∨ mi = 0)) →
      ¬ (i = (A.ion j).first_levden ∨
        ((A.ion j).first_levden < i ∧ i < (A.ion j).first_levden + (A.ion j).nlte))) :
    levels_step A B expFn mi weight t part arr j i = arr i := by
  unfold levels_step
  split
  · rename_i hproc
    have hni := h hproc
    push_neg at hni
    unfold get_boltzmann_populations
    rw [if_neg hni.1, if_neg (by tauto)]
  · rfl

/-- The `levels` ion loop leaves index `i` unchanged when no processed ion
of the list writes it. -/
theorem levels_foldl_untouched (A : Atomic k) (B : k) (expFn : k → k)
    (mi : ℕ) (weight t : k) (part : ℕ → k) (i : ℕ) :
    ∀ (l : List ℕ) (arr : ℕ → k),
      (∀ j ∈ l, (0 < (A.ion j).nlte ∧ ((A.ion j).matom_info = 0 ∨ mi = 0)) →
        ¬ (i = (A.ion j).first_levden ∨
          ((A.ion j).first_levden < i ∧ i < (A.ion j).first_levden + (A.ion j).nlte))) →
      l.foldl (levels_step A B expFn mi weight t part) arr i = arr i := by
  intro l
  induction l with
  | nil => intro arr _; rfl
  | cons a tl ih =>
      intro arr hl
      rw [List.foldl_cons, ih _ (fun j hj => hl j (List.mem_cons_of_mem a hj))]
      exact levels_step_untouched A B expFn mi weight t part arr a i
        (hl a (List.mem_cons_self a tl))

/-- The value `get_boltzmann_populations` writes inside its range does not
depend on the previous array contents. -/
theorem get_boltzmann_populations_in_range (A : Atomic k) (B : k) (expFn : k → k)
    (arr brr : ℕ → k) (nion : ℕ) (w t z : k) (fl i : ℕ)
    (hin : i = fl ∨ (fl < i ∧ i < fl + (A.ion nion).nlte)) :
    get_boltzmann_populations A B expFn arr nion w t z fl i =
      get_boltzmann_populations A B expFn brr nion w t z fl i := by
  unfold get_boltzmann_populations
  rcases hin with h | h
  · rw [if_pos h, if_pos h]
  · have hne : ¬ i = fl := by omega
    rw [if_neg hne, if_neg hne, if_pos h, if_pos h]

/-- Inside the `levels` ion loop, an index in the levden range of a
processed ion `nion` that no other processed ion of the list writes ends
up holding exactly the value `get_boltzmann_populations` computes for
`nion` (independently of the accumulated array). -/
theorem levels_foldl_write (A : Atomic k) (B : k) (expFn : k → k)
    (mi : ℕ) (weight t : k) (part : ℕ → k) (nion i : ℕ)
    (hproc : 0 < (A.ion nion).nlte ∧ ((A.ion nion).matom_info = 0 ∨ mi = 0))
    (hin : i = (A.ion nion).first_levden ∨
      ((A.ion nion).first_levden < i ∧
        i < (A.ion nion).first_levden + (A.ion nion).nlte)) :
    ∀ (l : List ℕ) (arr : ℕ → k), l.Nodup → nion ∈ l →
      (∀ j ∈ l, j ≠ nion →
        (0 < (A.ion j).nlte ∧ ((A.ion j).matom_info = 0 ∨ mi = 0)) →
        ¬ (i = (A.ion j).first_levden ∨
          ((A.ion j).first_levden < i ∧
            i < (A.ion j).first_levden + (A.ion j).nlte))) →
      l.foldl (levels_step A B expFn mi weight t part) arr i =
        get_boltzmann_populations A B expFn (fun _ => 0) nion weight t (part nion)
          (A.ion nion).first_levden i := by
  intro l
  induction l with
  | nil => intro arr _ hmem _; exact absurd hmem (List.not_mem_nil nion)
  | cons a tl ih =>
      intro arr hnd hmem hothers
      rw [List.foldl_cons]
      by_cases ha : a = nion
      · subst ha
        have hnotin : a ∉ tl := (List.nodup_cons.mp hnd).1
        rw [levels_foldl_untouched A B expFn mi weight t part i tl _
          (fun j hj hp => hothers j (List.mem_cons_of_mem a hj)
            (fun hja => hnotin (hja ▸ hj)) hp)]
        show levels_step A B expFn mi weight t part arr a i = _
        unfold levels_step
        rw [if_pos hproc]
        exact get_boltzmann_populations_in_range A B expFn arr (fun _ => 0) a
          weight t (part a) (A.ion a).first_levden i hin
      · rcases List.mem_cons.mp hmem with h | h
        · exact absurd h.symm ha
        · exact ih (levels_step A B expFn mi weight t part arr a)
            (List.nodup_cons.mp hnd).2 h
            (fun j hj hjn hp => hothers j (List.mem_cons_of_mem a hj) hjn hp)

/-- Evaluating `partition_functions_z` at weight 0 collapses to the ladder's ground
statistical weight (or the bare ion weight when there is no ladder). -/
theorem partition_functions_z_weight_zero (A : Atomic k) (expFn : k → k)
    (kt : k) (nion : ℕ) :
    partition_functions_z A expFn 0 kt nion =
      if 0 < (A.ion nion).nlevels then (A.config (A.ion nion).firstlevel).g
      else if 0 < (A.ion nion).nlte then (A.config (A.ion nion).first_nlte_level).g
      else (A.ion nion).g := by
  unfold partition_functions_z
  split
  · simp
  · split
    · simp
    · rfl

/-- C6.  In ground-state-only mode (mode 4, weight 0), after
`partition_functions` (which runs `levels` internally with the same mode),
every ion whose level populations are computed (`nlte > 0`, macro-atom
guard passed) has levden 1 at its ground slot and 0 at every higher slot
of its ladder, for any temperatures stored in the cell.  The hypotheses
hg0 and hgl are the atomic-data ground-state invariants (nonzero ground
weight; the detailed and reduced ladders share their ground-state weight),
and hdisj is the levden-layout invariant that distinct ions own disjoint
levden ranges. -/
theorem ground_state_only_levden (A : Atomic k) (B : k) (expFn : k → k)
    (matom_ioniz_mode : ℕ) (xplasma : Plasma k) (nion j : ℕ)
    (hn : nion < A.nions)
    (hlte : 0 < (A.ion nion).nlte)
    (hmac : (A.ion nion).matom_info = 0 ∨ matom_ioniz_mode = 0)
    (hg0 : (A.config (A.ion nion).first_nlte_level).g ≠ 0)
    (hgl : 0 < (A.ion nion).nlevels →
      (A.config (A.ion nion).firstlevel).g = (A.config (A.ion nion).first_nlte_level).g)
    (hdisj : ∀ m, m < A.nions → m ≠ nion →
      (A.ion m).first_levden + (A.ion m).nlte ≤ (A.ion nion).first_levden ∨
      (A.ion nion).first_levden + (A.ion nion).nlte ≤ (A.ion m).first_levden)
    (hj : j < (A.ion nion).nlte) :
    (exceptState (partition_functions A B expFn matom_ioniz_mode 4 xplasma)).levden
        ((A.ion nion).first_levden + j) = if j = 0 then 1 else 0 := by
  have hld : (exceptState (partition_functions A B expFn matom_ioniz_mode 4 xplasma)).levden =
      (List.range A.nions).foldl
        (levels_step A B expFn matom_ioniz_mode 0 xplasma.t_e
          (fun m => if m < A.nions then partition_functions_z A expFn 0 (B * xplasma.t_e) m
            else xplasma.partition m))
        xplasma.levden := rfl
  have hin : (A.ion nion).first_levden + j = (A.ion nion).first_levden ∨
      ((A.ion nion).first_levden < (A.ion nion).first_levden + j ∧
        (A.ion nion).first_levden + j <
          (A.ion nion).first_levden + (A.ion nion).nlte) := by omega
  rw [hld, levels_foldl_write A B expFn matom_ioniz_mode 0 xplasma.t_e _ nion
    ((A.ion nion).first_levden + j) ⟨hlte, hmac⟩ hin (List.range A.nions) xplasma.levden
    (List.nodup_range A.nions) (List.mem_range.mpr hn)
    (fun m hm hmn hp => by
      have hd := hdisj m (List.mem_range.mp hm) hmn
      intro htouch
      rcases htouch with ht | ht <;> omega)]
  have hz : (if nion < A.nions then partition_functions_z A expFn 0 (B * xplasma.t_e) nion
      else xplasma.partition nion) = (A.config (A.ion nion).first_nlte_level).g := by
    rw [if_pos hn, partition_functions_z_weight_zero]
    split
    · rename_i hlev; exact hgl hlev
    · rfl
  unfold get_boltzmann_populations
  rcases Nat.eq_zero_or_pos j with hj0 | hjpos
  · subst hj0
    rw [if_pos (by omega : (A.ion nion).first_levden + 0 = (A.ion nion).first_levden)]
    rw [hz, div_self hg0]
    simp
  · rw [if_neg (by omega : ¬ (A.ion nion).first_levden + j = (A.ion nion).first_levden),
      if_pos (by omega : (A.ion nion).first_levden < (A.ion nion).first_levden + j ∧
        (A.ion nion).first_levden + j < (A.ion nion).first_levden + (A.ion nion).nlte)]
    rw [if_neg (by omega : ¬ j = 0)]
    ring

/-- Concrete single-ion data for the ground-state-only witness: a 2-level
reduced ladder with ground weight 3 and an excited level of weight 7. -/
def c6Atomic : Atomic ℚ :=
  { ion := fun _ =>
      { g := 3, nlevels := 0, nlte := 2, firstlevel := 0, first_nlte_level := 0,
        first_levden := 0, matom_info := 0, has_superlevel := 0 },
    config := fun n =>
      { nion := 0, g := if n = 0 then 3 else 7, ex := if n = 0 then 0 else 5 },
    nions := 1 }

/-- Witness for C6: in mode 4 the excited slot of the concrete ion holds 0
after `partition_functions`. -/
theorem ground_state_only_levden_witness :
    (exceptState (partition_functions c6Atomic 1 (fun _ => (1 : ℚ)) 0 4 wPlasma)).levden 1
      = 0 := by
  simpa using ground_state_only_levden c6Atomic 1 (fun _ => (1 : ℚ)) 0 wPlasma 0 1
    (by decide) (by decide) (Or.inl rfl) (by norm_num [c6Atomic])
    (fun h => absurd h (by decide))
    (fun m hm hmn => absurd (Nat.lt_one_iff.mp hm) hmn) (by decide)

/-- The two per-ion Boltzmann sums, translated separately from
`partition_functions` and `partition_functions_2`, are the same
function. -/
theorem partition_functions_2_z_eq (A : Atomic k) (expFn : k → k)
    (weight kt : k) (nion : ℕ) :
    partition_functions_2_z A expFn weight kt nion =
      partition_functions_z A expFn weight kt nion := rfl

/-- C7.  For any ion pair index `xnion ≥ 1` with `xnion < nions`, the two
partition entries written by `partition_functions_2` at caller-supplied
`(T, W)` equal the entries the full `partition_functions` loop computes
for those two ions when its mode-selected temperature and weight are the
same `(T, W)` (realized by mode 2, which selects `t_r` and the cell's
dilution factor). -/
theorem partition_pair_matches_full (A : Atomic k) (B : k) (expFn : k → k)
    (matom_ioniz_mode : ℕ) (xplasma xfull : Plasma k) (xnion : ℕ) (T W : k)
    (h1 : 1 ≤ xnion) (h2 : xnion < A.nions) :
    (partition_functions_2 A B expFn xnion T W xplasma).partition (xnion - 1) =
      (exceptState (partition_functions A B expFn matom_ioniz_mode 2
        { xfull with t_r := T, w := W })).partition (xnion - 1) ∧
    (partition_functions_2 A B expFn xnion T W xplasma).partition xnion =
      (exceptState (partition_functions A B expFn matom_ioniz_mode 2
        { xfull with t_r := T, w := W })).partition xnion := by
  constructor
  · show (if xnion - 1 = xnion - 1 ∨ xnion - 1 = xnion then
        partition_functions_2_z A expFn W (B * T) (xnion - 1)
      else xplasma.partition (xnion - 1)) =
      (if xnion - 1 < A.nions then partition_functions_z A expFn W (B * T) (xnion - 1)
      else xfull.partition (xnion - 1))
    rw [if_pos (Or.inl rfl), if_pos (by omega : xnion - 1 < A.nions)]
    exact partition_functions_2_z_eq A expFn W (B * T) (xnion - 1)
  · show (if xnion = xnion - 1 ∨ xnion = xnion then
        partition_functions_2_z A expFn W (B * T) xnion
      else xplasma.partition xnion) =
      (if xnion < A.nions then partition_functions_z A expFn W (B * T) xnion
      else xfull.partition xnion)
    rw [if_pos (Or.inr rfl), if_pos h2]
    exact partition_functions_2_z_eq A expFn W (B * T) xnion

/-- Concrete two-ion data for the pair-vs-full witness: single-level
reduced ladders at levels 0 and 1. -/
def c7Atomic : Atomic ℚ :=
  { ion := fun i =>
      { g := 1, nlevels := 0, nlte := 1, firstlevel := i, first_nlte_level := i,
        first_levden := i, matom_info := 0, has_superlevel := 0 },
    config := fun n => { nion := n, g := if n = 0 then 2 else 3, ex := 0 },
    nions := 2 }

/-- Witness for C7: on the concrete two-ion table with `xnion = 1` the
pair routine's entry for ion 0 equals the full routine's entry. -/
theorem partition_pair_matches_full_witness :
    (partition_functions_2 c7Atomic 1 (fun _ => (1 : ℚ)) 1 1 1 wPlasma).partition 0 =
      (exceptState (partition_functions c7Atomic 1 (fun _ => (1 : ℚ)) 0 2
        { wPlasma with t_r := 1, w := 1 })).partition 0 :=
  (partition_pair_matches_full c7Atomic 1 (fun _ => (1 : ℚ)) 0 wPlasma wPlasma 1 1 1
    (le_refl 1) (by decide)).1

/-- The spec's concrete three-level scenario: one ion with reduced ladder
`g = [1, 3, 5]`, `ex = [0, 1, 2]` (noncomputable only because the carrier
is ℝ, to state the scenario with the genuine exponential). -/
noncomputable def c8Atomic : Atomic ℝ :=
  { ion := fun _ =>
      { g := 1, nlevels := 0, nlte := 3, firstlevel := 0, first_nlte_level := 0,
        first_levden := 0, matom_info := 0, has_superlevel := 0 },
    config := fun n =>
      { nion := 0, g := if n = 0 then 1 else if n = 1 then 3 else 5,
        ex := if n = 0 then 0 else if n = 1 then 1 else 2 },
    nions := 1 }

/-- A cell with `t_e = 1` so that `kt = 1` when `BOLTZMANN = 1`. -/
noncomputable def c8Plasma : Plasma ℝ :=
  { nwind := 0, nplasma := 0, ne := 1, rho := 1, vol := 1, t_r := 1, t_e := 1, w := 1,
    partition := fun _ => 0, density := fun _ => 1, levden := fun _ => 0 }

/-- The scenario's partition function `Z = 1 + 3 e^-1 + 5 e^-2`. -/
noncomputable def c8Z : ℝ := 1 + 3 * Real.exp (-1) + 5 * Real.exp (-2)

/-- C8, evaluation at the failing input.  On the three-level scenario the
code computes the claimed partition function Z, but the excited-level
populations carry an extra division by Z (`get_boltzmann_populations`
divides `ground * w * g_n * exp(...)` by `z` although `ground` already
contains `1/z`): levden = [1/Z, 3 e^-1/Z^2, 5 e^-2/Z^2], so levden[1]
differs from the claimed `3 e^-1/Z` and the populations do not sum to 1. -/
theorem levels_scenario_double_division :
    (exceptState (partition_functions c8Atomic 1 Real.exp 0 1 c8Plasma)).partition 0 = c8Z ∧
    (exceptState (partition_functions c8Atomic 1 Real.exp 0 1 c8Plasma)).levden 0 = 1 / c8Z ∧
    (exceptState (partition_functions c8Atomic 1 Real.exp 0 1 c8Plasma)).levden 1 =
      3 * Real.exp (-1) / c8Z ^ 2 ∧
    (exceptState (partition_functions c8Atomic 1 Real.exp 0 1 c8Plasma)).levden 2 =
      5 * Real.exp (-2) / c8Z ^ 2 ∧
    (exceptState (partition_functions c8Atomic 1 Real.exp 0 1 c8Plasma)).levden 1 ≠
      3 * Real.exp (-1) / c8Z ∧
    (exceptState (partition_functions c8Atomic 1 Real.exp 0 1 c8Plasma)).levden 0 +
        (exceptState (partition_functions c8Atomic 1 Real.exp 0 1 c8Plasma)).levden 1 +
        (exceptState (partition_functions c8Atomic 1 Real.exp 0 1 c8Plasma)).levden 2
      ≠ 1 := by
  have he1 := Real.exp_pos (-1 : ℝ)
  have he2 := Real.exp_pos (-2 : ℝ)
  have hZgt : (1 : ℝ) < c8Z := by unfold c8Z; nlinarith
  have hZpos : (0 : ℝ) < c8Z := by linarith
  have hZ0 : c8Z ≠ 0 := ne_of_gt hZpos
  have hzval : partition_functions_z c8Atomic Real.exp 1 (1 * c8Plasma.t_e) 0 = c8Z := by
    norm_num [partition_functions_z, c8Atomic, c8Plasma, c8Z,
      Finset.sum_Ico_succ_top, Finset.Ico_self]
    ring
  have hz2 : (if (0 : ℕ) < c8Atomic.nions
      then partition_functions_z c8Atomic Real.exp 1 (1 * c8Plasma.t_e) 0
      else c8Plasma.partition 0) = c8Z := by
    rw [if_pos (by norm_num [c8Atomic])]
    exact hzval
  have hpart : (exceptState (partition_functions c8Atomic 1 Real.exp 0 1 c8Plasma)).partition 0
      = c8Z := by
    show (if (0 : ℕ) < c8Atomic.nions
        then partition_functions_z c8Atomic Real.exp 1 (1 * c8Plasma.t_e) 0
        else c8Plasma.partition 0) = c8Z
    exact hz2
  have harr : ∀ i : ℕ,
      (exceptState (partition_functions c8Atomic 1 Real.exp 0 1 c8Plasma)).levden i =
        get_boltzmann_populations c8Atomic 1 Real.exp c8Plasma.levden 0 1 c8Plasma.t_e
          (if (0 : ℕ) < c8Atomic.nions
            then partition_functions_z c8Atomic Real.exp 1 (1 * c8Plasma.t_e) 0
            else c8Plasma.partition 0) (c8Atomic.ion 0).first_levden i :=
    fun i => rfl
  have h0 : (exceptState (partition_functions c8Atomic 1 Real.exp 0 1 c8Plasma)).levden 0
      = 1 / c8Z := by
    rw [harr 0, hz2]
    unfold get_boltzmann_populations
    norm_num [c8Atomic]
  have h1 : (exceptState (partition_functions c8Atomic 1 Real.exp 0 1 c8Plasma)).levden 1
      = 3 * Real.exp (-1) / c8Z ^ 2 := by
    rw [harr 1, hz2]
    unfold get_boltzmann_populations
    norm_num [c8Atomic, c8Plasma]
    field_simp
    ring
  have h2 : (exceptState (partition_functions c8Atomic 1 Real.exp 0 1 c8Plasma)).levden 2
      = 5 * Real.exp (-2) / c8Z ^ 2 := by
    rw [harr 2, hz2]
    unfold get_boltzmann_populations
    norm_num [c8Atomic, c8Plasma]
    field_simp
    ring
  refine ⟨hpart, h0, h1, h2, ?_, ?_⟩
  · rw [h1]
    intro h
    rw [div_eq_div_iff (pow_ne_zero 2 hZ0) hZ0] at h
    have h3 : 0 < 3 * Real.exp (-1) * c8Z * (c8Z - 1) :=
      mul_pos (mul_pos (mul_pos (by norm_num : (0 : ℝ) < 3) he1) hZpos)
        (by linarith : (0 : ℝ) < c8Z - 1)
    nlinarith [h3]
  · rw [h0, h1, h2]
    intro h
    have hs : 1 / c8Z + 3 * Real.exp (-1) / c8Z ^ 2 + 5 * Real.exp (-2) / c8Z ^ 2 =
        (2 * c8Z - 1) / c8Z ^ 2 := by
      field_simp
      unfold c8Z
      ring
    rw [hs, div_eq_one_iff_eq (pow_ne_zero 2 hZ0)] at h
    nlinarith [mul_pos (sub_pos.mpr hZgt) (sub_pos.mpr hZgt)]

end PythonSE
